import Mathlib

/-!
Verification development for the pybullet blocks environment
(`envs/pybullet_blocks.py`).

The physics engine (pybullet, `p.*`) is an external opaque collaborator;
its state transitions appear here as abstract functions.  All float
arithmetic in the controller and joint-range code is plain real
arithmetic on decimal constants, embedded as exact rationals.
-/

/-- A 3-vector of rationals (positions, translations). -/
structure V3 where
  x : ℚ
  y : ℚ
  z : ℚ
deriving DecidableEq, Repr

/-- A low-level control vector: end-effector displacement (3 scalars)
plus a gripper actuation scalar, as in the 4-dimensional action space. -/
structure ControlVec where
  dx : ℚ
  dy : ℚ
  dz : ℚ
  grip : ℚ
deriving DecidableEq, Repr

/-- Static and dynamic attributes of one tracked block, the 12-entry
attribute list `[w, l, h, x, y, z, orn_x, orn_y, orn_z, orn_w, mass, friction]`. -/
structure BlockAttributes where
  w : ℚ
  l : ℚ
  h : ℚ
  x : ℚ
  y : ℚ
  z : ℚ
  orn_x : ℚ
  orn_y : ℚ
  orn_z : ℚ
  orn_w : ℚ
  mass : ℚ
  friction : ℚ
deriving DecidableEq, Repr

/-- The raw observation produced by `LowLevelPybulletBlocksEnv.get_state`:
`obs['gripper'] = [gripper_position, gripper_velocity, left_finger_pos]`
and `obs['blocks']`, a dictionary from block name to attributes
(embedded as an association list with distinct keys in practice). -/
structure RawObs where
  gripper_position : V3
  gripper_velocity : V3
  left_finger_pos : ℚ
  blocks : List (String × BlockAttributes)
deriving DecidableEq, Repr

/-- `np.sign` on rationals. -/
def qsign (q : ℚ) : ℚ :=
  if 0 < q then 1 else if q < 0 then -1 else 0

/-- Global tolerance constant `atol = 1e-3`. -/
def atol : ℚ := 1/1000

/-- `get_move_action(gripper_position, target_position, atol, gain, close_gripper)`:
`action = gain * (target - gripper)` stacked with the gripper action
(`-0.1` when closing, else `0`).  The `atol` argument is unused by the code. -/
def get_move_action (gripper_position target_position : V3)
    (gain : ℚ) (close_gripper : Bool) : ControlVec :=
  let gripper_action : ℚ := if close_gripper then -1/10 else 0
  ⟨gain * (target_position.x - gripper_position.x),
   gain * (target_position.y - gripper_position.y),
   gain * (target_position.z - gripper_position.z),
   gripper_action⟩

/-- `block_inside_grippers`: the squared norm of
`(gripper - block) - relative_grasp_position` is below `atol`. -/
def block_inside_grippers (gripper_position block_position relative_grasp_position : V3)
    (tol : ℚ) : Bool :=
  decide ((gripper_position.x - block_position.x - relative_grasp_position.x) *
            (gripper_position.x - block_position.x - relative_grasp_position.x) +
          (gripper_position.y - block_position.y - relative_grasp_position.y) *
            (gripper_position.y - block_position.y - relative_grasp_position.y) +
          (gripper_position.z - block_position.z - relative_grasp_position.z) *
            (gripper_position.z - block_position.z - relative_grasp_position.z) < tol)

/-- `grippers_are_closed`: `abs(left_finger_pos) - 0.035 <= atol`. -/
def grippers_are_closed (left_finger_pos : ℚ) (tol : ℚ) : Bool :=
  decide (|left_finger_pos| - 7/200 ≤ tol)

/-- `grippers_are_open`: `abs(left_finger_pos - 0.05) <= atol`. -/
def grippers_are_open (left_finger_pos : ℚ) (tol : ℚ) : Bool :=
  decide (|left_finger_pos - 1/20| ≤ tol)

/-- `block_is_grasped`: block inside grippers and grippers closed
(the debug print is side-effect free and omitted). -/
def block_is_grasped (left_finger_pos : ℚ)
    (gripper_position block_position relative_grasp_position : V3) (tol : ℚ) : Bool :=
  block_inside_grippers gripper_position block_position relative_grasp_position tol &&
    grippers_are_closed left_finger_pos tol

/-- `pickup_controller(objects, obs, atol)`.  Python asserts exactly one
target object and indexes `obs['blocks'][block_name]`; both failure modes
(AssertionError, KeyError) are `none`.  Objects are identified by name
(`objects[0].name`).  The dead write `target_position = block_position.copy();
target_position[2] = pick_height` preceding the branch chain is omitted:
every later read of `target_position` follows the reassignment
`target_position = np.add(block_position, relative_grasp_position)`. -/
def pickup_controller (objects : List String) (obs : RawObs) (tol : ℚ) :
    Option (ControlVec × Bool) :=
  match objects with
  | [block_name] =>
    match obs.blocks.lookup block_name with
    | none => none
    | some battrs =>
      let gripper_position := obs.gripper_position
      let left_finger_pos := obs.left_finger_pos
      let block_position : V3 := ⟨battrs.x, battrs.y, battrs.z⟩
      let pick_height : ℚ := 1/2
      let relative_grasp_position : V3 := ⟨0, 0, 0⟩
      let workspace_height : ℚ := 1/10
      -- Done
      if pick_height ≤ block_position.z then
        some (⟨0, 0, 0, -1/100⟩, true)
      -- Bring up to pick position
      else if block_is_grasped left_finger_pos gripper_position block_position
          relative_grasp_position tol then
        some (⟨0, 0, qsign (pick_height - block_position.z), -1/100⟩, false)
      -- If the block is ready to be grasped: close the grippers
      else if block_inside_grippers gripper_position block_position
          relative_grasp_position tol then
        some (⟨0, 0, 0, -1⟩, false)
      else
        -- If the gripper is above the block
        let target_position : V3 :=
          ⟨block_position.x + relative_grasp_position.x,
           block_position.y + relative_grasp_position.y,
           block_position.z + relative_grasp_position.z⟩
        if (gripper_position.x - target_position.x) *
             (gripper_position.x - target_position.x) +
           (gripper_position.y - target_position.y) *
             (gripper_position.y - target_position.y) < tol then
          -- If the grippers are closed, open them
          if ¬ grippers_are_open left_finger_pos tol then
            some (⟨0, 0, 0, 1⟩, false)
          -- Move down to grasp
          else
            some (get_move_action gripper_position target_position 10 false, false)
        -- Else move the gripper to above the block
        else
          some (get_move_action gripper_position
            ⟨target_position.x, target_position.y, target_position.z + workspace_height⟩
            10 false, false)
  | _ => none

/-- `puton_controller(objects, state) = (np.zeros(4), True)`. -/
def puton_controller (objects : List String) (state : RawObs) :
    Option (ControlVec × Bool) :=
  some (⟨0, 0, 0, 0⟩, true)

/-- `putontable_controller(objects, state) = (np.zeros(4), True)`. -/
def putontable_controller (objects : List String) (state : RawObs) :
    Option (ControlVec × Bool) :=
  some (⟨0, 0, 0, 0⟩, true)

/-! ## Symbolic layer: predicates, literals, observation abstraction -/

/-- A symbolic predicate: name and arity (`ndr.structs.Predicate`; the
argument types are all `block` and carry no information here). -/
structure Predicate where
  name : String
  arity : Nat
deriving DecidableEq, Repr

/-- A grounded literal: predicate applied to object names; the field
`vars` is `lit.variables` in the source (a Lean keyword). -/
structure Lit where
  pred : Predicate
  vars : List String
deriving DecidableEq, Repr

/-- Action predicate `pickup = Predicate("pickup", 1, [block_type])`. -/
def pickup : Predicate := ⟨"pickup", 1⟩

/-- Action predicate `puton = Predicate("puton", 1, [block_type])`. -/
def puton : Predicate := ⟨"puton", 1⟩

/-- Action predicate `putontable = Predicate("putontable", 0, [])`. -/
def putontable : Predicate := ⟨"putontable", 0⟩

/-- Observation predicate `ontable = Predicate("ontable", 1, [block_type])`. -/
def ontable : Predicate := ⟨"ontable", 1⟩

/-- `get_observation(state)`: the set `{ ontable(b) | b in state["blocks"] }`. -/
def get_observation (state : RawObs) : Finset Lit :=
  (state.blocks.map (fun bl => Lit.mk ontable [bl.1])).toFinset

/-! ## Kinematics: joint graph model, joint ranges, IK re-indexing, chain walk -/

/-- The joint graph of a pybullet body, as read through `p.getNumJoints`,
`p.getJointInfo` and `p.getJointState`.  `qIndex` is `joint_info[3]`
(`> -1` means movable), `parentIndex` is `joint_info[-1]` (the parent link),
`jointState` is the current joint position `p.getJointState(...)[0]`.
`parent_lt` is the pybullet well-formedness fact that a link's parent
always has a smaller index (links are numbered so parents precede
children), which is what makes the chain walk terminate. -/
structure Body where
  numJoints : Nat
  qIndex : Nat → Int
  parentIndex : Nat → Int
  jointState : Nat → ℚ
  parent_lt : ∀ i : Nat, 0 < i → (parentIndex i).toNat < i

/-- `1e-8`, the epsilon band pinning joints excluded from the chain. -/
def jointEps : ℚ := 1/100000000

/-- The four parallel lists returned by `get_joint_ranges`. -/
structure JointRangesResult where
  lower_limits : List ℚ
  upper_limits : List ℚ
  joint_ranges : List ℚ
  rest_poses : List ℚ
deriving DecidableEq, Repr

/-- `get_joint_ranges(body_id, joint_indices)`: loop over all joints,
skip fixed joints (`qIndex <= -1`); a movable joint gets `ll, ul = -2, 2`
and `jr = 2`, the rest pose is its current live state, and a movable
joint outside `joint_indices` instead gets the epsilon band around its
current pose. -/
def get_joint_ranges (body : Body) (joint_indices : List Nat) : JointRangesResult :=
  (List.range body.numJoints).foldl
    (fun acc i =>
      if body.qIndex i ≤ -1 then acc
      else
        let rp := body.jointState i
        let lluljr : ℚ × ℚ × ℚ :=
          if i ∈ joint_indices then (-2, 2, 2) else (rp - jointEps, rp + jointEps, jointEps)
        ⟨acc.lower_limits ++ [lluljr.1], acc.upper_limits ++ [lluljr.2.1],
         acc.joint_ranges ++ [lluljr.2.2], acc.rest_poses ++ [rp]⟩)
    ⟨[], [], [], []⟩

/-- The free (movable) joints of the body in index order, as collected by
the `for idx in range(num_joints)` loop in `inverse_kinematics`. -/
def free_joint_indices (body : Body) : List Nat :=
  (List.range body.numJoints).filter (fun i => -1 < body.qIndex i)

/-- `inverse_kinematics(body_id, end_effector_id, target_position,
target_orientation, joint_indices)`.  The numerical optimizer
`p.calculateInverseKinematics` is the opaque external collaborator: it is
modelled as a function from the computed joint ranges to the list of
poses for all free joints.  The result re-indexing is faithful:
`free_joint_indices.index(idx)` (ValueError when absent → `none`) and
`all_joint_poses[free_joint_idx]` (IndexError when out of range → `none`). -/
def inverse_kinematics (body : Body) (optimizer : JointRangesResult → List ℚ)
    (joint_indices : List Nat) : Option (List ℚ) :=
  let ranges := get_joint_ranges body joint_indices
  let all_joint_poses := optimizer ranges
  joint_indices.mapM (fun idx => do
    let free_joint_idx ← (free_joint_indices body).indexOf? idx
    all_joint_poses[free_joint_idx]?)

/-- `get_kinematic_chain(robot_id, end_effector_id)`: walk parent links
from the end effector while the link index is positive, collecting each
traversed movable joint (`joint_info[3] > -1`), then step to the parent
link `joint_info[-1]`. -/
def get_kinematic_chain (body : Body) (end_effector_id : Int) : List Int :=
  if h : 0 < end_effector_id then
    if -1 < body.qIndex end_effector_id.toNat then
      end_effector_id :: get_kinematic_chain body (body.parentIndex end_effector_id.toNat)
    else
      get_kinematic_chain body (body.parentIndex end_effector_id.toNat)
  else []
termination_by end_effector_id.toNat
decreasing_by
  all_goals exact body.parent_lt end_effector_id.toNat (by omega)

/-- The sequence of links traversed by the `get_kinematic_chain` walk
(every visited positive link index, in visit order). -/
def chain_path (body : Body) (end_effector_id : Int) : List Int :=
  if h : 0 < end_effector_id then
    end_effector_id :: chain_path body (body.parentIndex end_effector_id.toNat)
  else []
termination_by end_effector_id.toNat
decreasing_by
  exact body.parent_lt end_effector_id.toNat (by omega)

/-! ## Action abstraction layer -/

/-- The type of a controller: `(action arguments, raw observation) ->
(control vector, done flag)`, `none` when the Python controller raises. -/
def ControllerFn : Type :=
  List String → RawObs → Option (ControlVec × Bool)

/-- The controller dispatch table, a dictionary fixed at module load:
`{pickup: pickup_controller, puton: puton_controller,
putontable: putontable_controller}`.  `pickup_controller`'s `atol`
default argument binds the global `atol`. -/
def controllers : List (Predicate × ControllerFn) :=
  [(pickup, fun objects obs => pickup_controller objects obs atol),
   (puton, puton_controller),
   (putontable, putontable_controller)]

/-- A low-level environment with hidden simulator state `σ`:
`step(control)` returns `(obs, reward, done, info)` while mutating the
simulator; here the mutation is explicit state passing, so the result is
`(new state, obs, reward, done)`. -/
structure LowEnv (σ : Type) where
  step : σ → ControlVec → σ × RawObs × ℚ × Bool

/-- The mutable fields of `AbstractPybulletEnv` between calls: the low-level
simulator state, the cached raw observation `_previous_low_level_obs`, and
the object domain of the action space (`self.action_space`, after `update`). -/
structure AbstractState (σ : Type) where
  envState : σ
  prevObs : RawObs
  actionSpaceObjects : List String

/-- `controller_max_steps = 100`, the fixed tick budget. -/
def controller_max_steps : Nat := 100

/-- The `for _ in range(controller_max_steps)` loop body of
`AbstractPybulletEnv.step`: ask the controller for `(control, controller_done)`;
on `controller_done` break; otherwise advance the simulator one tick,
accumulate its reward, and break if it signals done.  `fuel` is the number
of remaining loop iterations; `reward` and `done` are the loop variables. -/
def step_loop {σ : Type} (env : LowEnv σ) (ctrl : ControllerFn) (args : List String) :
    Nat → σ → RawObs → ℚ → Bool → Option (σ × RawObs × ℚ × Bool)
  | 0, s, low_level_obs, reward, done => some (s, low_level_obs, reward, done)
  | fuel + 1, s, low_level_obs, reward, done =>
    match ctrl args low_level_obs with
    | none => none
    | some (control, controller_done) =>
      if controller_done then
        some (s, low_level_obs, reward, done)
      else
        match env.step s control with
        | (s2, obs2, low_level_reward, done2) =>
          if done2 then
            some (s2, obs2, reward + low_level_reward, done2)
          else
            step_loop env ctrl args fuel s2 obs2 (reward + low_level_reward) done2

/-- `AbstractPybulletEnv.step(action)`: look up the controller for the
action's predicate (KeyError → `none`), run the tick loop from the cached
raw observation, then return the symbolic observation of the final raw
observation together with accumulated reward and done flag, caching the
final raw observation. -/
def AbstractPybulletEnv.step {σ : Type} (env : LowEnv σ) (action : Lit)
    (st : AbstractState σ) : Option (Finset Lit × ℚ × Bool × AbstractState σ) :=
  match controllers.lookup action.pred with
  | none => none
  | some ctrl =>
    match step_loop env ctrl action.vars controller_max_steps
        st.envState st.prevObs 0 false with
    | none => none
    | some (s2, low_level_obs, reward, done) =>
      some (get_observation low_level_obs, reward, done,
        { st with envState := s2, prevObs := low_level_obs })

/-- Modelled from the spec: `LiteralSpace.update` lives in `envs/spaces.py`,
which is not under `src/`; per the spec it "republishes that set into the
action-space's domain", i.e. the action space's object domain becomes
exactly the given object list. -/
def LiteralSpace.update (objects : List String) : List String := objects

/-- `sorted({ v for lit in obs for v in lit.variables })`: the sorted list
of the distinct object identifiers appearing in the literals of `obs`. -/
def problem_objects (obs : Finset Lit) : List String :=
  (obs.biUnion (fun lit => lit.vars.toFinset)).sort (· ≤ ·)

/-- `AbstractPybulletEnv.reset()`: reset the low-level simulator (its
sampling and physics are opaque, modelled by the function `low_reset`),
abstract the raw observation, cache it, derive the problem objects, and
publish them into the action space. -/
def AbstractPybulletEnv.reset {σ : Type} (low_reset : σ → σ × RawObs) (s : σ) :
    Finset Lit × AbstractState σ :=
  let r := low_reset s
  let obs := get_observation r.2
  (obs, { envState := r.1, prevObs := r.2,
          actionSpaceObjects := LiteralSpace.update (problem_objects obs) })

/-- The opaque physics side of `LowLevelPybulletBlocksEnv.step`:
everything up to `self.get_state()` (IK, motor control, simulation
substeps) is a state transition of the pybullet session; `observe` is
`get_state`. -/
structure PhysicsModel (σ : Type) where
  transition : σ → ControlVec → σ
  observe : σ → RawObs

/-- `LowLevelPybulletBlocksEnv.step(action)` as a `LowEnv`: advance the
opaque physics, then `return obs, reward, done, info` with the literal
constants `reward = 0.` and `done = False`. -/
def LowLevelPybulletBlocksEnv.stepEnv {σ : Type} (phys : PhysicsModel σ) : LowEnv σ :=
  ⟨fun s action => (phys.transition s action, phys.observe (phys.transition s action), 0, false)⟩

/-- A low-level environment instrumented with a tick counter: each call of
`step` increments the counter and otherwise behaves as `env`.  Used to
state tick-budget properties of the loop. -/
def countingEnv {σ : Type} (env : LowEnv σ) : LowEnv (σ × Nat) :=
  ⟨fun sn control =>
    match env.step sn.1 control with
    | (s2, obs, reward, done) => ((s2, sn.2 + 1), obs, reward, done)⟩

/-- Concrete observation for the C1 witness: one block already at height
`0.6 ≥ 0.5`. -/
def c1Obs : RawObs :=
  { gripper_position := ⟨1, 1, 1⟩
    gripper_velocity := ⟨0, 0, 0⟩
    left_finger_pos := 0
    blocks := [("block0",
      { w := 3/40, l := 3/40, h := 3/40, x := 5/4, y := 1/2, z := 3/5,
        orn_x := 0, orn_y := 0, orn_z := 0, orn_w := 1,
        mass := 1/10, friction := 1 })] }

/-- The block attributes stored in `c1Obs`. -/
def c1Battrs : BlockAttributes :=
  { w := 3/40, l := 3/40, h := 3/40, x := 5/4, y := 1/2, z := 3/5,
    orn_x := 0, orn_y := 0, orn_z := 0, orn_w := 1,
    mass := 1/10, friction := 1 }

/-- Concrete observation for the C9 witness. -/
def c9Obs : RawObs :=
  { gripper_position := ⟨0, 0, 0⟩
    gripper_velocity := ⟨0, 0, 0⟩
    left_finger_pos := 0
    blocks := [("block0",
      { w := 1, l := 1, h := 1, x := 0, y := 0, z := 0,
        orn_x := 0, orn_y := 0, orn_z := 0, orn_w := 1,
        mass := 1, friction := 1 })] }

/-- A one-joint body whose only joint is movable and at pose `0`. -/
def c3Body : Body :=
  { numJoints := 1
    qIndex := fun _ => 0
    parentIndex := fun _ => -1
    jointState := fun _ => 0
    parent_lt := fun i hi => by exact hi }

/-- A two-joint body, both joints movable, for the C4 witness. -/
def c4Body : Body :=
  { numJoints := 2
    qIndex := fun _ => 0
    parentIndex := fun _ => -1
    jointState := fun _ => 0
    parent_lt := fun i hi => by exact hi }

/-- An optimizer stub answering `[5, 7]` for the two free joints of `c4Body`. -/
def c4Optimizer : JointRangesResult → List ℚ := fun _ => [5, 7]

/-- Raw observation used by the C6 witness. -/
def c6Obs : RawObs :=
  { gripper_position := ⟨0, 0, 0⟩, gripper_velocity := ⟨0, 0, 0⟩,
    left_finger_pos := 0, blocks := [] }

/-- A low-level environment that signals terminal on its first tick, with
reward `5`. -/
def c6Env : LowEnv Unit := ⟨fun _ _ => ((), c6Obs, 5, true)⟩

/-- A controller that never signals done. -/
def c6Ctrl : ControllerFn := fun _ _ => some (⟨0, 0, 0, 0⟩, false)

/-- Raw observation with one block `block0`, for the C8 counterexample. -/
def c8xObs : RawObs :=
  { gripper_position := ⟨0, 0, 0⟩, gripper_velocity := ⟨0, 0, 0⟩,
    left_finger_pos := 0,
    blocks := [("block0",
      { w := 1, l := 1, h := 1, x := 0, y := 0, z := 0,
        orn_x := 0, orn_y := 0, orn_z := 0, orn_w := 1,
        mass := 1, friction := 1 })] }

/-- A trivial low-level environment for the C8 counterexample. -/
def c8xEnv : LowEnv Unit := ⟨fun s _ => (s, c8xObs, 0, false)⟩

/-- Abstract-layer state caching `c8xObs`. -/
def c8xSt : AbstractState Unit := ⟨(), c8xObs, ["block0"]⟩

/-- Witness environment for C8. -/
def c8wEnv : LowEnv Unit := ⟨fun s _ => (s, c8xObs, 0, false)⟩

/-- Witness abstract state for C8. -/
def c8wSt : AbstractState Unit := ⟨(), c8xObs, ["block0"]⟩

/-- Physics stub for the C10 witness: identity transition, constant
observation. -/
def c10Phys : PhysicsModel Unit := ⟨fun s _ => s, fun _ => c8xObs⟩

/-- Witness abstract state for C10. -/
def c10St : AbstractState Unit := ⟨(), c8xObs, ["block0"]⟩

/-! ## Claims -/

/-- C1: for every invocation of `pickup_controller` with a single target
object and a raw observation containing that object, the returned
`(control, done)` pair exists and satisfies: `done = true` iff the target
block's vertical position is at or above the pick height `0.5`, and in
that case the control vector is `[0, 0, 0, -0.01]`.  The controller is a
pure function of the observation (no stored phase). -/
theorem pickup_controller_done_iff_pick_height (obs : RawObs) (b : String)
    (battrs : BlockAttributes) (h : obs.blocks.lookup b = some battrs) :
    ∃ c d, pickup_controller [b] obs atol = some (c, d) ∧
      ((d = true) ↔ (1/2 : ℚ) ≤ battrs.z) ∧
      ((1/2 : ℚ) ≤ battrs.z → c = ⟨0, 0, 0, -1/100⟩) := by
  by_cases hz : (1/2 : ℚ) ≤ battrs.z
  · refine ⟨⟨0, 0, 0, -1/100⟩, true, ?_, ⟨fun _ => hz, fun _ => rfl⟩, fun _ => rfl⟩
    simp only [pickup_controller, h]
    rw [if_pos hz]
  · have hex : ∃ c, pickup_controller [b] obs atol = some (c, false) := by
      simp only [pickup_controller, h]
      rw [if_neg hz]
      split_ifs <;> exact ⟨_, rfl⟩
    obtain ⟨c, hc⟩ := hex
    exact ⟨c, false, hc,
      ⟨fun hd => (Bool.false_ne_true hd).elim, fun hle => (hz hle).elim⟩,
      fun h2 => absurd h2 hz⟩

/-- Witness for C1 at the concrete observation `c1Obs`. -/
theorem pickup_controller_done_iff_pick_height_witness :
    c1Obs.blocks.lookup "block0" = some c1Battrs ∧
    ∃ c d, pickup_controller ["block0"] c1Obs atol = some (c, d) ∧
      ((d = true) ↔ (1/2 : ℚ) ≤ c1Battrs.z) ∧
      ((1/2 : ℚ) ≤ c1Battrs.z → c = ⟨0, 0, 0, -1/100⟩) :=
  ⟨rfl, pickup_controller_done_iff_pick_height c1Obs "block0" c1Battrs rfl⟩

/-- C9: `get_observation` is a pure function returning exactly
`{ ontable(b) | b a block name of the observation }`: membership is
characterized by the block names, and identical raw observations yield
identical literal sets. -/
theorem get_observation_ontable_only (state : RawObs) :
    (∀ l : Lit, l ∈ get_observation state ↔
      ∃ b ∈ state.blocks.map Prod.fst, l = Lit.mk ontable [b]) ∧
    (∀ s1 s2 : RawObs, s1 = s2 → get_observation s1 = get_observation s2) := by
  constructor
  · intro l
    constructor
    · intro hl
      rw [get_observation, List.mem_toFinset, List.mem_map] at hl
      obtain ⟨bl, hbl, rfl⟩ := hl
      exact ⟨bl.1, List.mem_map_of_mem _ hbl, rfl⟩
    · rintro ⟨b, hb, rfl⟩
      rw [List.mem_map] at hb
      obtain ⟨bl, hbl, rfl⟩ := hb
      rw [get_observation, List.mem_toFinset, List.mem_map]
      exact ⟨bl, hbl, rfl⟩
  · intro s1 s2 h
    rw [h]

/-- Witness for C9 at `c9Obs`. -/
theorem get_observation_ontable_only_witness :
    (Lit.mk ontable ["block0"] ∈ get_observation c9Obs ↔
      ∃ b ∈ c9Obs.blocks.map Prod.fst, Lit.mk ontable ["block0"] = Lit.mk ontable [b]) ∧
    get_observation c9Obs = get_observation c9Obs :=
  ⟨(get_observation_ontable_only c9Obs).1 _,
   (get_observation_ontable_only c9Obs).2 c9Obs c9Obs rfl⟩

/-- C2: after every `reset()`, the action space's object domain is a
sorted duplicate-free list whose members are exactly the object
identifiers appearing as arguments in the literals of the symbolic
observation that `reset()` returns. -/
theorem reset_action_space_domain {σ : Type} (low_reset : σ → σ × RawObs) (s : σ) :
    ((AbstractPybulletEnv.reset low_reset s).2.actionSpaceObjects.Sorted (· ≤ ·)) ∧
    (AbstractPybulletEnv.reset low_reset s).2.actionSpaceObjects.Nodup ∧
    (∀ v, v ∈ (AbstractPybulletEnv.reset low_reset s).2.actionSpaceObjects ↔
      ∃ l ∈ (AbstractPybulletEnv.reset low_reset s).1, v ∈ l.vars) := by
  refine ⟨Finset.sort_sorted _ _, Finset.sort_nodup _ _, ?_⟩
  intro v
  simp [AbstractPybulletEnv.reset, LiteralSpace.update, problem_objects,
    Finset.mem_sort, Finset.mem_biUnion, List.mem_toFinset]

/-- C5: the chain discovery walk returns exactly the movable joints
(`qIndex > -1`) among the traversed links, in end-effector-to-base
(visit) order, terminating at the root. -/
theorem get_kinematic_chain_movable_filter (body : Body) (e : Int) :
    get_kinematic_chain body e =
      (chain_path body e).filter (fun j => decide (-1 < body.qIndex j.toNat)) := by
  have H : ∀ (n : Nat) (e : Int), e.toNat ≤ n →
      get_kinematic_chain body e =
        (chain_path body e).filter (fun j => decide (-1 < body.qIndex j.toNat)) := by
    intro n
    induction n with
    | zero =>
      intro e he
      have hnp : ¬ 0 < e := by omega
      rw [get_kinematic_chain, chain_path]
      simp [hnp]
    | succ n ih =>
      intro e he
      rw [get_kinematic_chain, chain_path]
      by_cases hpos : 0 < e
      · have hdec : (body.parentIndex e.toNat).toNat < e.toNat :=
          body.parent_lt e.toNat (by omega)
        have hrec := ih (body.parentIndex e.toNat) (by omega)
        by_cases hq : -1 < body.qIndex e.toNat
        · simp [hpos, hq, hrec]
        · simp [hpos, hq, hrec]
      · simp [hpos]
  exact H e.toNat e le_rfl

/-- C3 (amended): for every body and requested joint subset, the joint
ranges are computed per movable joint (in joint-index order, i.e. along
`free_joint_indices`): a movable joint in the requested chain gets lower
limit `-2`, upper limit `2` and joint range `2` (the code's `jr = 2.`,
not `4.0`); a movable joint outside the chain gets the epsilon band
`[rp - 1e-8, rp + 1e-8]` with range `1e-8` around its current live pose
`rp`; and every rest pose is the current live joint state. -/
theorem get_joint_ranges_characterization (body : Body) (joint_indices : List Nat) :
    get_joint_ranges body joint_indices =
      { lower_limits := (free_joint_indices body).map
          (fun i => if i ∈ joint_indices then (-2 : ℚ) else body.jointState i - jointEps),
        upper_limits := (free_joint_indices body).map
          (fun i => if i ∈ joint_indices then (2 : ℚ) else body.jointState i + jointEps),
        joint_ranges := (free_joint_indices body).map
          (fun i => if i ∈ joint_indices then (2 : ℚ) else jointEps),
        rest_poses := (free_joint_indices body).map (fun i => body.jointState i) } := by
  have H : ∀ (l : List Nat) (acc : JointRangesResult),
      l.foldl
        (fun acc i =>
          if body.qIndex i ≤ -1 then acc
          else
            let rp := body.jointState i
            let lluljr : ℚ × ℚ × ℚ :=
              if i ∈ joint_indices then (-2, 2, 2)
              else (rp - jointEps, rp + jointEps, jointEps)
            ⟨acc.lower_limits ++ [lluljr.1], acc.upper_limits ++ [lluljr.2.1],
             acc.joint_ranges ++ [lluljr.2.2], acc.rest_poses ++ [rp]⟩) acc =
      { lower_limits := acc.lower_limits ++
          (l.filter (fun i => decide (-1 < body.qIndex i))).map
            (fun i => if i ∈ joint_indices then (-2 : ℚ) else body.jointState i - jointEps),
        upper_limits := acc.upper_limits ++
          (l.filter (fun i => decide (-1 < body.qIndex i))).map
            (fun i => if i ∈ joint_indices then (2 : ℚ) else body.jointState i + jointEps),
        joint_ranges := acc.joint_ranges ++
          (l.filter (fun i => decide (-1 < body.qIndex i))).map
            (fun i => if i ∈ joint_indices then (2 : ℚ) else jointEps),
        rest_poses := acc.rest_poses ++
          (l.filter (fun i => decide (-1 < body.qIndex i))).map
            (fun i => body.jointState i) } := by
    intro l
    induction l with
    | nil => intro acc; simp
    | cons a t ih =>
      intro acc
      rw [List.foldl_cons]
      by_cases ha : body.qIndex a ≤ -1
      · have hfa : decide (-1 < body.qIndex a) = false := by
          simp [ha, not_lt.mpr ha]
        rw [if_pos ha, ih]
        simp [List.filter_cons, hfa]
      · have hfa : decide (-1 < body.qIndex a) = true := by
          simp [lt_of_not_le ha]
        rw [if_neg ha, ih]
        by_cases hmem : a ∈ joint_indices
        · simp [List.filter_cons, hfa, hmem]
        · simp [List.filter_cons, hfa, hmem]
  unfold get_joint_ranges free_joint_indices
  rw [H]
  simp

/-- C3 counterexample: for `c3Body` with the requested chain `[0]`, the
computed joint range of the chain joint is `2.0`, not the claimed `4.0`. -/
theorem get_joint_ranges_range_is_two_not_four :
    (get_joint_ranges c3Body [0]).joint_ranges = [2] ∧
    (get_joint_ranges c3Body [0]).joint_ranges ≠ [(4 : ℚ)] := by
  constructor
  · rfl
  · intro h
    have h2 : (2 : ℚ) = 4 := List.head_eq_of_cons_eq (by rw [← h]; rfl)
    norm_num at h2

/-- If `a` occurs in `l` then `l.indexOf? a` succeeds with an in-range index. -/
theorem exists_indexOf?_of_mem {α : Type} [BEq α] [LawfulBEq α] {a : α} :
    ∀ {l : List α}, a ∈ l → ∃ k, l.indexOf? a = some k ∧ k < l.length := by
  intro l
  induction l with
  | nil => intro h; cases h
  | cons b t ih =>
    intro h
    rw [List.indexOf?_cons]
    by_cases hb : b == a
    · exact ⟨0, by rw [if_pos hb], Nat.succ_pos _⟩
    · have ha : a ∈ t := by
        rcases List.mem_cons.mp h with h1 | h1
        · exact absurd (by rw [h1]; exact beq_self_eq_true b) hb
        · exact h1
      obtain ⟨k, hk, hkl⟩ := ih ha
      exact ⟨k + 1, by rw [if_neg hb, hk]; rfl, Nat.succ_lt_succ hkl⟩

/-- The re-indexing loop of `inverse_kinematics` succeeds and picks, for
each requested joint, the optimizer entry at that joint's position within
the free-joint list, provided every requested joint is free and the
optimizer returned one entry per free joint. -/
theorem mapM_index_lookup (fji : List Nat) (poses : List ℚ)
    (hlen : poses.length = fji.length) :
    ∀ (l : List Nat), (∀ j ∈ l, j ∈ fji) →
      (l.mapM (fun idx => do
        let free_joint_idx ← fji.indexOf? idx
        poses[free_joint_idx]?)) =
      some (l.map (fun idx => (poses[fji.indexOf idx]?).getD 0)) := by
  intro l
  induction l with
  | nil => intro _; rfl
  | cons a t ih =>
    intro hmem
    have ha : a ∈ fji := hmem a (List.mem_cons_self a t)
    obtain ⟨k, hk, hkl⟩ := exists_indexOf?_of_mem ha
    have hkeq : fji.indexOf a = k := by rw [List.indexOf_eq_indexOf?, hk]
    have hkp : k < poses.length := by omega
    have hsome : poses[k]? = some (poses.get ⟨k, hkp⟩) := by
      rw [List.getElem?_eq_getElem hkp]
      rfl
    have iht := ih (fun j hj => hmem j (List.mem_cons_of_mem a hj))
    rw [List.mapM_cons, iht, hk]
    simp [hsome, hkeq]

/-- C4: for every requested chain whose joints are all free joints of the
body (and an optimizer answer covering every free joint),
`inverse_kinematics` returns exactly `joint_indices.length` values, in
chain order, the value for each requested joint being the optimizer
entry at that joint's position within the ordered free-joint list. -/
theorem inverse_kinematics_chain_reindexing (body : Body)
    (optimizer : JointRangesResult → List ℚ) (joint_indices : List Nat)
    (h1 : ∀ j ∈ joint_indices, j ∈ free_joint_indices body)
    (h2 : (optimizer (get_joint_ranges body joint_indices)).length =
      (free_joint_indices body).length) :
    ∃ res, inverse_kinematics body optimizer joint_indices = some res ∧
      res.length = joint_indices.length ∧
      res = joint_indices.map (fun idx =>
        ((optimizer (get_joint_ranges body joint_indices))[(free_joint_indices body).indexOf idx]?).getD 0) := by
  refine ⟨_, ?_, ?_, rfl⟩
  · unfold inverse_kinematics
    exact mapM_index_lookup _ _ h2 joint_indices h1
  · rw [List.length_map]

/-- Witness for C4: chain `[1, 0]` on `c4Body` yields the optimizer
entries in chain order. -/
theorem inverse_kinematics_chain_reindexing_witness :
    (∀ j ∈ ([1, 0] : List Nat), j ∈ free_joint_indices c4Body) ∧
    ((c4Optimizer (get_joint_ranges c4Body [1, 0])).length =
      (free_joint_indices c4Body).length) ∧
    ∃ res, inverse_kinematics c4Body c4Optimizer [1, 0] = some res ∧
      res.length = ([1, 0] : List Nat).length ∧
      res = ([1, 0] : List Nat).map (fun idx =>
        ((c4Optimizer (get_joint_ranges c4Body [1, 0]))[(free_joint_indices c4Body).indexOf idx]?).getD 0) :=
  ⟨by decide, rfl,
   inverse_kinematics_chain_reindexing c4Body c4Optimizer [1, 0] (by decide) rfl⟩

/-- Unfolding `step_loop` at positive fuel when the controller raises. -/
theorem step_loop_succ_none {σ : Type} {env : LowEnv σ} {ctrl : ControllerFn}
    {args : List String} {obs : RawObs} (fuel : Nat) (s : σ) (rw0 : ℚ) (dn : Bool)
    (hc : ctrl args obs = none) :
    step_loop env ctrl args (fuel + 1) s obs rw0 dn = none := by
  rw [step_loop, hc]

/-- Unfolding `step_loop` at positive fuel when the controller signals done. -/
theorem step_loop_succ_done {σ : Type} {env : LowEnv σ} {ctrl : ControllerFn}
    {args : List String} {obs : RawObs} {c : ControlVec} (fuel : Nat) (s : σ)
    (rw0 : ℚ) (dn : Bool) (hc : ctrl args obs = some (c, true)) :
    step_loop env ctrl args (fuel + 1) s obs rw0 dn = some (s, obs, rw0, dn) := by
  rw [step_loop, hc]
  rfl

/-- Unfolding `step_loop` at positive fuel when the controller emits a
control: the simulator advances one tick. -/
theorem step_loop_succ_tick {σ : Type} {env : LowEnv σ} {ctrl : ControllerFn}
    {args : List String} {obs : RawObs} {c : ControlVec} {s2 : σ} {obs2 : RawObs}
    {r : ℚ} {d2 : Bool} (fuel : Nat) (s : σ) (rw0 : ℚ) (dn : Bool)
    (hc : ctrl args obs = some (c, false)) (hstep : env.step s c = (s2, obs2, r, d2)) :
    step_loop env ctrl args (fuel + 1) s obs rw0 dn =
      if d2 then some (s2, obs2, rw0 + r, d2)
      else step_loop env ctrl args fuel s2 obs2 (rw0 + r) d2 := by
  rw [step_loop, hc]
  show (match env.step s c with
        | (s2, obs2, low_level_reward, done2) =>
          if done2 then some (s2, obs2, rw0 + low_level_reward, done2)
          else step_loop env ctrl args fuel s2 obs2 (rw0 + low_level_reward) done2) = _
  rw [hstep]

/-- C6: the `step` tick loop performs at most `fuel` simulator ticks (so at
most `controller_max_steps = 100` when invoked by `step`); when the
controller signals done the loop stops at once without advancing the
simulator (state, observation, reward and done flag unchanged); and when
the controller emits a control and the simulator signals terminal, the
loop stops after exactly that one tick with its reward accumulated. -/
theorem step_loop_budget_and_stops {σ : Type} (env : LowEnv σ) (ctrl : ControllerFn)
    (args : List String) (s : σ) (obs : RawObs) :
    (∀ (fuel n : Nat) (obs0 : RawObs) (rw0 : ℚ) (dn : Bool) (s0 : σ)
        (out : (σ × Nat) × RawObs × ℚ × Bool),
      step_loop (countingEnv env) ctrl args fuel (s0, n) obs0 rw0 dn = some out →
        out.1.2 ≤ n + fuel) ∧
    (∀ c, ctrl args obs = some (c, true) →
      step_loop (countingEnv env) ctrl args controller_max_steps (s, 0) obs 0 false =
        some ((s, 0), obs, 0, false)) ∧
    (∀ c s2 obs2 r, ctrl args obs = some (c, false) →
        env.step s c = (s2, obs2, r, true) →
      step_loop (countingEnv env) ctrl args controller_max_steps (s, 0) obs 0 false =
        some ((s2, 1), obs2, r, true)) := by
  refine ⟨?_, ?_, ?_⟩
  · intro fuel
    induction fuel with
    | zero =>
      intro n obs0 rw0 dn s0 out h
      rw [step_loop] at h
      cases h
      simp
    | succ m ih =>
      intro n obs0 rw0 dn s0 out h
      cases hc : ctrl args obs0 with
      | none =>
        rw [step_loop_succ_none m (s0, n) rw0 dn hc] at h
        cases h
      | some cb =>
        obtain ⟨control, cdone⟩ := cb
        cases cdone with
        | true =>
          rw [step_loop_succ_done m (s0, n) rw0 dn hc] at h
          cases h
          simp
        | false =>
          rcases hstep : env.step s0 control with ⟨s2, obs2, r2, d2⟩
          have hcs : (countingEnv env).step (s0, n) control = ((s2, n + 1), obs2, r2, d2) := by
            simp [countingEnv, hstep]
          rw [step_loop_succ_tick m (s0, n) rw0 dn hc hcs] at h
          cases d2 with
          | true =>
            rw [if_pos rfl] at h
            cases h
            simp
          | false =>
            rw [if_neg Bool.false_ne_true] at h
            have := ih (n + 1) obs2 (rw0 + r2) false s2 out h
            omega
  · intro c hc
    show step_loop (countingEnv env) ctrl args (99 + 1) (s, 0) obs 0 false = _
    exact step_loop_succ_done 99 (s, 0) 0 false hc
  · intro c s2 obs2 r hc hstep
    show step_loop (countingEnv env) ctrl args (99 + 1) (s, 0) obs 0 false = _
    have hcs : (countingEnv env).step (s, 0) c = ((s2, 1), obs2, r, true) := by
      simp [countingEnv, hstep]
    rw [step_loop_succ_tick 99 (s, 0) 0 false hc hcs, if_pos rfl]
    norm_num

/-- Witness for C6: the loop stops after exactly one tick when the
simulator signals terminal. -/
theorem step_loop_budget_and_stops_witness :
    c6Ctrl [] c6Obs = some (⟨0, 0, 0, 0⟩, false) ∧
    c6Env.step () ⟨0, 0, 0, 0⟩ = ((), c6Obs, 5, true) ∧
    step_loop (countingEnv c6Env) c6Ctrl [] controller_max_steps ((), 0) c6Obs 0 false =
      some (((), 1), c6Obs, 5, true) :=
  ⟨rfl, rfl,
   (step_loop_budget_and_stops c6Env c6Ctrl [] () c6Obs).2.2 ⟨0, 0, 0, 0⟩ () c6Obs 5 rfl rfl⟩

/-- C7: `puton_controller` and `putontable_controller` return the zero
motion vector and done on every invocation; consequently a `step` call
with a `puton` or `putontable` action advances the simulator zero ticks
(the abstract state, including the cached raw observation, is returned
unchanged) and yields accumulated reward `0` and terminal `false`. -/
theorem puton_putontable_trivial_step {σ : Type} (env : LowEnv σ) (st : AbstractState σ)
    (objects : List String) (state : RawObs) (vs : List String) :
    puton_controller objects state = some (⟨0, 0, 0, 0⟩, true) ∧
    putontable_controller objects state = some (⟨0, 0, 0, 0⟩, true) ∧
    AbstractPybulletEnv.step env ⟨puton, vs⟩ st =
      some (get_observation st.prevObs, 0, false, st) ∧
    AbstractPybulletEnv.step env ⟨putontable, vs⟩ st =
      some (get_observation st.prevObs, 0, false, st) := by
  refine ⟨rfl, rfl, rfl, rfl⟩

/-- C8 counterexample: the predicate `pickup` is registered in the
dispatch table, yet `step` on the action `pickup("ghost")` fails (the
controller's KeyError on the unknown block name), so "step fails iff the
predicate is unregistered" is false as stated. -/
theorem step_fails_for_registered_pickup :
    (controllers.lookup pickup).isSome = true ∧
    AbstractPybulletEnv.step c8xEnv ⟨pickup, ["ghost"]⟩ c8xSt = none :=
  ⟨rfl, rfl⟩

/-- C8 (amended): the controller lookup of `step` fails exactly when the
action's predicate is none of the three registered predicates `pickup`,
`puton`, `putontable` (the dispatch table fixed at construction), and an
unregistered predicate makes `step` itself fail; for registered
predicates the lookup succeeds (though `step` may still fail inside the
controller, as the counterexample shows). -/
theorem step_unregistered_predicate_lookup {σ : Type} (env : LowEnv σ) (action : Lit)
    (st : AbstractState σ) :
    (controllers.lookup action.pred = none ↔
      ¬ (action.pred = pickup ∨ action.pred = puton ∨ action.pred = putontable)) ∧
    (controllers.lookup action.pred = none →
      AbstractPybulletEnv.step env action st = none) := by
  constructor
  · constructor
    · intro h hmem
      have hks : (controllers.lookup pickup).isSome = true := rfl
      have hos : (controllers.lookup puton).isSome = true := rfl
      have hts : (controllers.lookup putontable).isSome = true := rfl
      rcases hmem with h1 | h1 | h1
      · rw [h1] at h; rw [h] at hks; exact Bool.noConfusion hks
      · rw [h1] at h; rw [h] at hos; exact Bool.noConfusion hos
      · rw [h1] at h; rw [h] at hts; exact Bool.noConfusion hts
    · intro hmem
      push_neg at hmem
      obtain ⟨h1, h2, h3⟩ := hmem
      have e1 : (action.pred == pickup) = false := beq_eq_false_iff_ne.mpr h1
      have e2 : (action.pred == puton) = false := beq_eq_false_iff_ne.mpr h2
      have e3 : (action.pred == putontable) = false := beq_eq_false_iff_ne.mpr h3
      simp only [controllers, List.lookup]
      rw [e1, e2, e3]
  · intro h
    unfold AbstractPybulletEnv.step
    rw [h]

/-- Witness for C8 (amended) at the unregistered predicate `foo`. -/
theorem step_unregistered_predicate_lookup_witness :
    (controllers.lookup (⟨"foo", 0⟩ : Predicate) = none) ∧
    AbstractPybulletEnv.step c8wEnv ⟨⟨"foo", 0⟩, []⟩ c8wSt = none :=
  ⟨rfl, (step_unregistered_predicate_lookup c8wEnv ⟨⟨"foo", 0⟩, []⟩ c8wSt).2 rfl⟩

/-- C10: the low-level environment's `step` returns reward `0` and done
`false` unconditionally; consequently every abstraction-layer `step`
call that returns at all returns accumulated reward exactly `0` and
terminal exactly `false`, for every action and physics behaviour. -/
theorem low_level_step_zero_reward_never_done {σ : Type} (phys : PhysicsModel σ)
    (action : Lit) (st : AbstractState σ) :
    (∀ (s : σ) (a : ControlVec),
      ((LowLevelPybulletBlocksEnv.stepEnv phys).step s a).2.2 = (0, false)) ∧
    (∀ out, AbstractPybulletEnv.step (LowLevelPybulletBlocksEnv.stepEnv phys) action st =
        some out → out.2.1 = 0 ∧ out.2.2.1 = false) := by
  have hloop : ∀ (ctrl : ControllerFn) (args : List String) (fuel : Nat) (s : σ)
      (obs : RawObs) (rw0 : ℚ) (r : σ × RawObs × ℚ × Bool),
      step_loop (LowLevelPybulletBlocksEnv.stepEnv phys) ctrl args fuel s obs rw0 false =
        some r → r.2.2.1 = rw0 ∧ r.2.2.2 = false := by
    intro ctrl args fuel
    induction fuel with
    | zero =>
      intro s obs rw0 r h
      rw [step_loop] at h
      cases h
      exact ⟨rfl, rfl⟩
    | succ m ih =>
      intro s obs rw0 r h
      cases hc : ctrl args obs with
      | none =>
        rw [step_loop_succ_none m s rw0 false hc] at h
        cases h
      | some cb =>
        obtain ⟨control, cdone⟩ := cb
        cases cdone with
        | true =>
          rw [step_loop_succ_done m s rw0 false hc] at h
          cases h
          exact ⟨rfl, rfl⟩
        | false =>
          have hstep : (LowLevelPybulletBlocksEnv.stepEnv phys).step s control =
              (phys.transition s control, phys.observe (phys.transition s control), 0, false) :=
            rfl
          rw [step_loop_succ_tick m s rw0 false hc hstep,
            if_neg Bool.false_ne_true] at h
          have := ih (phys.transition s control)
            (phys.observe (phys.transition s control)) (rw0 + 0) r h
          rw [add_zero] at this
          exact this
  constructor
  · intro s a
    rfl
  · intro out hout
    unfold AbstractPybulletEnv.step at hout
    split at hout
    · cases hout
    · split at hout
      · cases hout
      · rename_i ctrl hlk x s2 obs2 rw2 dn2 hsl
        cases hout
        exact hloop ctrl action.vars controller_max_steps st.envState st.prevObs 0
          (s2, obs2, rw2, dn2) hsl

/-- Witness for C10: a `putontable` step on the stub physics returns and
has reward `0` and done `false`. -/
theorem low_level_step_zero_reward_never_done_witness :
    AbstractPybulletEnv.step (LowLevelPybulletBlocksEnv.stepEnv c10Phys)
      ⟨putontable, []⟩ c10St =
      some (get_observation c8xObs, 0, false, c10St) ∧
    ((0 : ℚ) = 0 ∧ (false : Bool) = false) :=
  ⟨rfl,
   (low_level_step_zero_reward_never_done c10Phys ⟨putontable, []⟩ c10St).2
     (get_observation c8xObs, 0, false, c10St) rfl⟩
